import Mathlib

/-!
# Verification of the nextBank backend (`src/server.js`)

A shallow embedding of the Express + MySQL banking backend.  The three
database tables (`users`, `sessions`, `accounts`) are modelled as lists of
rows inside a `DB` state; each HTTP endpoint becomes a pure function
`DB → Response × DB` mirroring the sequence of SQL statements the handler
issues.  External collaborators (HTTP framing, JSON, the MySQL engine
itself, bcrypt) are modelled at their observable interface:

* `bcrypt.hash`/`bcrypt.compare` are modelled by a deterministic hash
  (`encryptPassword`) and its equality test; only the match/mismatch
  behaviour matters to the handlers.
* `Math.random`-generated OTPs and `CURRENT_TIMESTAMP` defaults are passed
  to the handlers as explicit parameters (`otp`, `now`).
* MySQL `AUTO_INCREMENT` is modelled by a `nextUserId` counter in the
  state; the `UNIQUE` constraint on `users.username` makes the `INSERT`
  in the register handler fail on a duplicate, which the handler's
  `catch` turns into a 500 response.
* JavaScript truthiness is modelled where the source relies on it: an
  array (query result list) is *always* truthy, even when empty
  (`jsArrayTruthy`).
-/

namespace NextBank

/-- A row of the `users` table: `users(id, username UNIQUE, password)`
where `password` stores the bcrypt hash. -/
structure UserRow where
  id : Nat
  username : String
  password : String
  deriving Repr, DecidableEq

/-- A row of the `sessions` table: `sessions(user_id, otp,
login_timestamp)`; `login_timestamp` defaults to the insertion time. -/
structure SessionRow where
  user_id : Nat
  otp : String
  login_timestamp : Int
  deriving Repr, DecidableEq

/-- A row of the `accounts` table: `accounts(user_id, balance)`.  The
`DECIMAL` balance is modelled exactly, as a rational number. -/
structure AccountRow where
  user_id : Nat
  balance : Rat
  deriving Repr, DecidableEq

/-- The database state behind the connection pool, plus the
`AUTO_INCREMENT` counter for `users.id`. -/
structure DB where
  users : List UserRow
  sessions : List SessionRow
  accounts : List AccountRow
  nextUserId : Nat
  deriving Repr, DecidableEq

/-- The observable part of an HTTP response body produced by the
handlers: a `message` string, an `otp` string, or a `balance` number. -/
inductive Body where
  | msg (m : String)
  | otp (o : String)
  | balance (b : Rat)
  deriving Repr, DecidableEq

/-- An HTTP response: status code plus JSON body. -/
structure Response where
  status : Nat
  body : Body
  deriving Repr, DecidableEq

/-- `encryptPassword` (server.js:35-39): bcrypt hashing, modelled as a
deterministic tagged hash; the handlers only ever compare hashes via
`bcrypt.compare`. -/
def encryptPassword (password : String) : String :=
  "$2b$10$" ++ password

/-- `bcrypt.compare(password, storedHash)`: true iff `storedHash` is the
hash of `password`. -/
def bcryptCompare (password storedHash : String) : Bool :=
  encryptPassword password == storedHash

/-- `SELECT * FROM users WHERE username = ?` followed by taking the first
row (`const [user] = ...`). -/
def findUser (db : DB) (username : String) : Option UserRow :=
  db.users.find? (fun u => u.username == username)

/-- `SELECT * FROM sessions WHERE user_id = ? AND otp = ?` — the full
result list. -/
def sessionsMatching (db : DB) (uid : Nat) (otp : String) : List SessionRow :=
  db.sessions.filter (fun s => s.user_id == uid && s.otp == otp)

/-- Session validity as the handlers test it (`validSessions.length ===
0` negated): a session row for `uid` with exactly this `otp` exists. -/
def validateSession (db : DB) (uid : Nat) (otp : String) : Bool :=
  db.sessions.any (fun s => s.user_id == uid && s.otp == otp)

/-- `SELECT balance FROM accounts WHERE user_id = ?` followed by
`result[0]`. -/
def findAccount (db : DB) (uid : Nat) : Option AccountRow :=
  db.accounts.find? (fun a => a.user_id == uid)

/-- `UPDATE accounts SET balance = ? WHERE user_id = ?`. -/
def updateAccountBalance (accounts : List AccountRow) (uid : Nat) (b : Rat) :
    List AccountRow :=
  accounts.map (fun a => if a.user_id == uid then { a with balance := b } else a)

/-- In JavaScript every array object is truthy, even `[]`; the source's
`if (!validSession)` guard in the balance handler therefore never fires. -/
def jsArrayTruthy (_l : List SessionRow) : Bool :=
  true

/-!
The deposit/withdraw handlers compute the new balance with JavaScript
number arithmetic: `parseFloat(result[0].balance) + parseFloat(amount)`
(server.js:275-277, 307-309).  JavaScript numbers are IEEE-754 binary64
doubles, so every read converts the stored decimal to the nearest double
and every `+`/`-` rounds the exact sum/difference to the nearest double
(ties to even).  `roundDouble` below is that rounding, defined over the
rationals: a 53-bit significand with unbounded-below exponent clamped at
the subnormal limit 2^-1074.  Overflow to infinity and NaN are outside
the balances this service can represent and are not modelled.
-/

/-- `⌊log₂ q⌋` for a positive rational, computed by scaling: accurate for
every `q ≥ 2^-1100`, which covers all positive doubles. -/
def ratLog2Floor (q : ℚ) : ℤ :=
  (Nat.log2 (Int.toNat ⌊q * 2 ^ (1100 : ℕ)⌋) : ℤ) - 1100

/-- Nearest integer with ties to even. -/
def roundToEven (x : ℚ) : ℤ :=
  if x - ⌊x⌋ < 1 / 2 then ⌊x⌋
  else if 1 / 2 < x - ⌊x⌋ then ⌊x⌋ + 1
  else if ⌊x⌋ % 2 = 0 then ⌊x⌋ else ⌊x⌋ + 1

/-- Round a positive rational to the nearest binary64 double: the unit in
the last place is `2^(⌊log₂ q⌋ - 52)`, clamped at the subnormal ulp
`2^-1074`. -/
def roundDoublePos (q : ℚ) : ℚ :=
  (roundToEven (q / 2 ^ max (ratLog2Floor q - 52) (-1074)) : ℚ) *
    2 ^ max (ratLog2Floor q - 52) (-1074)

/-- Round a rational to the nearest binary64 double (round to nearest,
ties to even); rounding is symmetric in the sign. -/
def roundDouble (q : ℚ) : ℚ :=
  if q = 0 then 0
  else if q < 0 then -roundDoublePos (-q)
  else roundDoublePos q

/-- The session TTL used by `clearSessions` (server.js:49):
`10 * 60 * 1000` milliseconds. -/
def tenMinutes : Int := 10 * 60 * 1000

/-- `clearSessions` (server.js:48-59), a single Reaper pass at time
`now`: `DELETE FROM sessions WHERE login_timestamp < ?` with cutoff
`now - tenMinutes`.  (The self-rescheduling `setTimeout` is the timer
loop; one pass is the repository's unit of behaviour.) -/
def clearSessions (now : Int) (db : DB) : DB :=
  { db with sessions :=
      db.sessions.filter (fun s => !(s.login_timestamp < now - tenMinutes)) }

/-- `POST /users` (server.js:69-92): hash the password, `INSERT INTO
users` (fails on a duplicate username because of the `UNIQUE` constraint,
caught as a 500), re-`SELECT` the user, `INSERT INTO accounts` a zero
balance (fails if a row with that `user_id` already exists, caught as a
500 — the user row inserted just before is then kept), 201 on success. -/
def register (db : DB) (username password : String) : Response × DB :=
  if db.users.any (fun u => u.username == username) then
    (⟨500, .msg "Failed to create user"⟩, db)
  else
    let encryptedPassword := encryptPassword password
    let newUser : UserRow := ⟨db.nextUserId, username, encryptedPassword⟩
    let db1 : DB := { db with users := db.users ++ [newUser],
                              nextUserId := db.nextUserId + 1 }
    match findUser db1 username with
    | none => (⟨500, .msg "Failed to create user"⟩, db1)
    | some user =>
        if db1.accounts.any (fun a => a.user_id == user.id) then
          (⟨500, .msg "Failed to create user"⟩, db1)
        else
          (⟨201, .msg "User created"⟩,
           { db1 with accounts := db1.accounts ++ [⟨user.id, 0⟩] })

/-- `POST /login` (server.js:95-136): look the user up (401 on unknown
username), compare the password (401 on mismatch), delete any existing
session row for the user, insert a fresh session with the generated OTP
(`otp`) and the current timestamp (`now`), and return the OTP. -/
def login (db : DB) (username password : String) (otp : String) (now : Int) :
    Response × DB :=
  match findUser db username with
  | none => (⟨401, .msg "Login failed."⟩, db)
  | some user =>
      if bcryptCompare password user.password then
        let afterDelete :=
          match db.sessions.find? (fun s => s.user_id == user.id) with
          | some _ => db.sessions.filter (fun s => !(s.user_id == user.id))
          | none => db.sessions
        (⟨200, .otp otp⟩,
         { db with sessions := afterDelete ++ [⟨user.id, otp, now⟩] })
      else
        (⟨401, .msg "Login failed."⟩, db)

/-- `PUT /update-password` (server.js:139-169): 404 on unknown username,
401 on old-password mismatch, otherwise `UPDATE users SET password = ?
WHERE id = ?` with the hash of the new password. -/
def updatePassword (db : DB) (username password newPassword : String) :
    Response × DB :=
  match findUser db username with
  | none => (⟨404, .msg "User not found."⟩, db)
  | some user =>
      if bcryptCompare password user.password then
        (⟨200, .msg "Password updated"⟩,
         { db with users := db.users.map (fun u =>
             if u.id == user.id then
               { u with password := encryptPassword newPassword }
             else u) })
      else
        (⟨401, .msg "Invalid password"⟩, db)

/-- `DELETE /delete-user` (server.js:172-202): 404 on unknown username,
401 on password mismatch; then `DELETE FROM sessions WHERE user_id = ?
AND otp = ?` (its result is never inspected — a non-matching OTP deletes
nothing and does not stop the handler) followed by `DELETE FROM users
WHERE username = ?`.  No statement touches `accounts`. -/
def deleteUser (db : DB) (username password otp : String) : Response × DB :=
  match findUser db username with
  | none => (⟨404, .msg "User not found"⟩, db)
  | some user =>
      if bcryptCompare password user.password then
        let afterSessions :=
          db.sessions.filter (fun s => !(s.user_id == user.id && s.otp == otp))
        (⟨200, .msg "User deleted"⟩,
         { db with sessions := afterSessions,
                   users := db.users.filter (fun u => !(u.username == username)) })
      else
        (⟨401, .msg "Invalid password"⟩, db)

/-- `DELETE /logout` (server.js:205-225): 404 on unknown username, then
`DELETE FROM sessions WHERE user_id = ? AND otp = ?` and 200 regardless
of whether a row matched. -/
def logout (db : DB) (username otp : String) : Response × DB :=
  match findUser db username with
  | none => (⟨404, .msg "User not found or already logged out"⟩, db)
  | some user =>
      (⟨200, .msg "Logout successful"⟩,
       { db with sessions :=
           db.sessions.filter (fun s => !(s.user_id == user.id && s.otp == otp)) })

/-- `POST /me/account` (server.js:228-254): 404 on unknown username; the
session query's guard `if (!validSession)` tests the truthiness of the
result *array*, which is always truthy, so it never rejects; then the
balance is read (a missing account row makes `result[0].balance` throw,
caught as 404) and returned with 200. -/
def getBalance (db : DB) (username otp : String) : Response × DB :=
  match findUser db username with
  | none => (⟨404, .msg "User not found or already logged out"⟩, db)
  | some user =>
      let validSession := sessionsMatching db user.id otp
      if !(jsArrayTruthy validSession) then
        (⟨404, .msg "Failed to get balance"⟩, db)
      else
        match findAccount db user.id with
        | none => (⟨404, .msg "Failed to get balance"⟩, db)
        | some account => (⟨200, .balance account.balance⟩, db)

/-- `POST /me/account/transaction/deposit` (server.js:256-286): 404 on
unknown username, 404 when no session row matches `(user_id, otp)`
(`validSessions.length === 0`), otherwise read the balance (a missing
account row throws, caught as 500), add the amount, write the new
balance back, and return it.  The arithmetic follows server.js:275-277:
`parseFloat` converts the stored decimal and the request amount to the
nearest binary64 double, and JavaScript `+` rounds the exact sum to the
nearest double. -/
def deposit (db : DB) (username otp : String) (amount : Rat) : Response × DB :=
  match findUser db username with
  | none => (⟨404, .msg "User not found or already logged out"⟩, db)
  | some user =>
      let validSessions := sessionsMatching db user.id otp
      if validSessions.length == 0 then
        (⟨404, .msg "Invalid session or OTP"⟩, db)
      else
        match findAccount db user.id with
        | none => (⟨500, .msg "Failed to update balance"⟩, db)
        | some account =>
            let newBalance :=
              roundDouble (roundDouble account.balance + roundDouble amount)
            (⟨200, .balance newBalance⟩,
             { db with accounts :=
                 updateAccountBalance db.accounts user.id newBalance })

/-- `POST /me/account/transaction/withdraw` (server.js:288-318): same
shape as the deposit handler with `balance - amount`, again in binary64
double arithmetic (server.js:307-309). -/
def withdraw (db : DB) (username otp : String) (amount : Rat) : Response × DB :=
  match findUser db username with
  | none => (⟨404, .msg "User not found or already logged out"⟩, db)
  | some user =>
      let validSessions := sessionsMatching db user.id otp
      if validSessions.length == 0 then
        (⟨404, .msg "Invalid session or OTP"⟩, db)
      else
        match findAccount db user.id with
        | none => (⟨500, .msg "Failed to update balance"⟩, db)
        | some account =>
            let newBalance :=
              roundDouble (roundDouble account.balance - roundDouble amount)
            (⟨200, .balance newBalance⟩,
             { db with accounts :=
                 updateAccountBalance db.accounts user.id newBalance })

/-- One client-visible operation of the service, with the
environment-supplied values (generated OTP, current time) as payload. -/
inductive Op where
  | register (username password : String)
  | login (username password otp : String) (now : Int)
  | updatePassword (username password newPassword : String)
  | deleteUser (username password otp : String)
  | logout (username otp : String)
  | getBalance (username otp : String)
  | deposit (username otp : String) (amount : Rat)
  | withdraw (username otp : String) (amount : Rat)
  | reap (now : Int)
  deriving Repr

/-- The state transition of one operation (the response is dropped). -/
def applyOp : Op → DB → DB
  | .register username password, db => (register db username password).2
  | .login username password otp now, db => (login db username password otp now).2
  | .updatePassword username password newPassword, db =>
      (updatePassword db username password newPassword).2
  | .deleteUser username password otp, db => (deleteUser db username password otp).2
  | .logout username otp, db => (logout db username otp).2
  | .getBalance username otp, db => (getBalance db username otp).2
  | .deposit username otp amount, db => (deposit db username otp amount).2
  | .withdraw username otp amount, db => (withdraw db username otp amount).2
  | .reap now, db => clearSessions now db

/-- Run a sequence of operations from a starting state. -/
def applyOps (ops : List Op) (db : DB) : DB :=
  ops.foldl (fun d op => applyOp op d) db

/-- The single-live-session invariant: no two rows of `sessions` share a
`user_id`. -/
def atMostOneSession (db : DB) : Prop :=
  db.sessions.Pairwise (fun a b => a.user_id ≠ b.user_id)

instance (db : DB) : Decidable (atMostOneSession db) :=
  inferInstanceAs (Decidable (List.Pairwise _ _))

/-!
The deposit handler's balance mutation (server.js:274-278) is **two**
separately awaited store operations: a `SELECT` that reads the balance
into a local variable, and an `UPDATE` that writes `local + amount`.
Between the two awaits the Node.js event loop can run the corresponding
steps of another in-flight request for the same user.  `TxAction` is one
store operation of one of two concurrent deposit requests, A and B, for
the same user's account; a schedule is any interleaving of each
request's read before its write.
-/

/-- One store operation of deposit request A or B. -/
inductive TxAction where
  | readA | writeA | readB | writeB
  deriving Repr, DecidableEq

/-- The account balance plus each request's local `balance` variable
(`none` until its `SELECT` has run; a write before the read is a no-op,
so only genuine read-then-write schedules change the balance). -/
structure TxState where
  balance : Rat
  localA : Option Rat
  localB : Option Rat
  deriving Repr, DecidableEq

/-- Effect of one store operation, with `amountA`, `amountB` the two
requests' deposit amounts. -/
def txStep (amountA amountB : Rat) (s : TxState) : TxAction → TxState
  | .readA => { s with localA := some s.balance }
  | .writeA =>
      match s.localA with
      | some b => { s with balance := b + amountA }
      | none => s
  | .readB => { s with localB := some s.balance }
  | .writeB =>
      match s.localB with
      | some b => { s with balance := b + amountB }
      | none => s

/-- Run a schedule of store operations. -/
def runTx (amountA amountB : Rat) (sched : List TxAction) (s : TxState) : TxState :=
  sched.foldl (txStep amountA amountB) s

/-- Alice's user row in the sample states below. -/
def aliceRow : UserRow :=
  ⟨1, "alice", encryptPassword "pw1"⟩

/-- A sample state: alice is registered, logged in with OTP `"111111"`,
and her account holds 42. -/
def sampleDB : DB :=
  { users := [aliceRow]
    sessions := [⟨1, "111111", 0⟩]
    accounts := [⟨1, 42⟩]
    nextUserId := 2 }

/-- The sample state with a zero balance. -/
def zeroDB : DB :=
  { sampleDB with accounts := [⟨1, 0⟩] }

/-- The sample state with balance 3/10 (the decimal 0.3, which is not
representable in binary64). -/
def floatDB : DB :=
  { sampleDB with accounts := [⟨1, 3 / 10⟩] }

/-! ## Helper lemmas -/

theorem find?_append_of_eq_none {α : Type} (p : α → Bool) (l1 l2 : List α)
    (h : l1.find? p = none) : (l1 ++ l2).find? p = l2.find? p := by
  induction l1 with
  | nil => rfl
  | cons a l ih =>
      rw [List.find?_cons] at h
      cases hpa : p a with
      | true => simp [hpa] at h
      | false =>
          rw [List.cons_append, List.find?_cons, hpa]
          exact ih (by simpa [hpa] using h)

theorem findAccount_updateBalance (l : List AccountRow) (uid : Nat) (b : Rat) :
    (updateAccountBalance l uid b).find? (fun a => a.user_id == uid) =
      (l.find? (fun a => a.user_id == uid)).map (fun a => { a with balance := b }) := by
  induction l with
  | nil => rfl
  | cons a l ih =>
      cases ha : a.user_id == uid with
      | true =>
          have ha' : a.user_id = uid := by simpa using ha
          have h1 : updateAccountBalance (a :: l) uid b =
              { a with balance := b } :: updateAccountBalance l uid b := by
            simp [updateAccountBalance, ha']
          rw [h1, List.find?_cons, List.find?_cons]
          simp [ha]
      | false =>
          have ha' : ¬a.user_id = uid := by simpa using ha
          have h1 : updateAccountBalance (a :: l) uid b =
              a :: updateAccountBalance l uid b := by
            simp [updateAccountBalance, ha']
          rw [h1, List.find?_cons, List.find?_cons]
          simp only [ha]
          exact ih

theorem sessionsMatching_length_beq_zero (db : DB) (uid : Nat) (otp : String)
    (h : validateSession db uid otp = true) :
    ((sessionsMatching db uid otp).length == 0) = false := by
  rw [validateSession, List.any_eq_true] at h
  obtain ⟨s, hs, hp⟩ := h
  have hmem : s ∈ sessionsMatching db uid otp := List.mem_filter.mpr ⟨hs, hp⟩
  have hne : sessionsMatching db uid otp ≠ [] := List.ne_nil_of_mem hmem
  simp [List.length_eq_zero, hne]

theorem roundToEven_intCast (m : ℤ) : roundToEven (m : ℚ) = m := by
  rw [roundToEven, Int.floor_intCast]
  norm_num

theorem roundToEven_eq_of_lt (x : ℚ) (n : ℤ) (h1 : ⌊x⌋ = n) (h2 : x - n < 1 / 2) :
    roundToEven x = n := by
  rw [roundToEven, h1, if_pos h2]

theorem roundToEven_eq_of_gt (x : ℚ) (n : ℤ) (h1 : ⌊x⌋ = n) (h2 : 1 / 2 < x - n) :
    roundToEven x = n + 1 := by
  rw [roundToEven, h1, if_neg (not_lt.mpr h2.le), if_pos h2]

theorem roundToEven_tie_odd (x : ℚ) (n : ℤ) (h1 : ⌊x⌋ = n) (h2 : x - n = 1 / 2)
    (h3 : n % 2 = 1) : roundToEven x = n + 1 := by
  rw [roundToEven, h1, h2]
  norm_num
  exact h3

/-- Evaluation rule for `roundDouble` on positives: if `q` lies in the
binade with unit in the last place `2^e` (normal range, `e ≥ -1074`) and
`q/2^e` rounds to the integer significand `m`, then `q` rounds to
`m·2^e`. -/
theorem roundDouble_pos_eq (q : ℚ) (e m : ℤ) (hq : 0 < q) (he : -1074 ≤ e)
    (hbin1 : (2 : ℚ) ^ (e + 52) ≤ q) (hbin2 : q < (2 : ℚ) ^ (e + 53))
    (hm : roundToEven (q / 2 ^ e) = m) :
    roundDouble q = (m : ℚ) * 2 ^ e := by
  have h2 : (0 : ℚ) < 2 := by norm_num
  have h2ne : (2 : ℚ) ≠ 0 := by norm_num
  have hs1 : (2 : ℚ) ^ (e + 1152) ≤ q * 2 ^ (1100 : ℕ) := by
    have hmul := mul_le_mul_of_nonneg_right hbin1 (le_of_lt (pow_pos h2 1100))
    calc (2 : ℚ) ^ (e + 1152) = 2 ^ (e + 52) * 2 ^ (1100 : ℕ) := by
          rw [← zpow_natCast (2 : ℚ) 1100, ← zpow_add₀ h2ne]
          congr 1
          push_cast
          ring
      _ ≤ q * 2 ^ (1100 : ℕ) := hmul
  have hs2 : q * 2 ^ (1100 : ℕ) < (2 : ℚ) ^ (e + 1153) := by
    have hmul := mul_lt_mul_of_pos_right hbin2 (pow_pos h2 1100)
    calc q * 2 ^ (1100 : ℕ) < 2 ^ (e + 53) * 2 ^ (1100 : ℕ) := hmul
      _ = (2 : ℚ) ^ (e + 1153) := by
          rw [← zpow_natCast (2 : ℚ) 1100, ← zpow_add₀ h2ne]
          congr 1
          push_cast
          ring
  set k : ℕ := (e + 1152).toNat with hk
  have hke : (k : ℤ) = e + 1152 := Int.toNat_of_nonneg (by omega)
  set T : ℤ := ⌊q * 2 ^ (1100 : ℕ)⌋ with hT
  have hT1 : (2 : ℤ) ^ k ≤ T := by
    apply Int.le_floor.mpr
    calc ((2 ^ k : ℤ) : ℚ) = (2 : ℚ) ^ (k : ℤ) := by push_cast [zpow_natCast]; ring
      _ = (2 : ℚ) ^ (e + 1152) := by rw [hke]
      _ ≤ q * 2 ^ (1100 : ℕ) := hs1
  have hT2 : T < 2 ^ (k + 1) := by
    have hfl : (T : ℚ) ≤ q * 2 ^ (1100 : ℕ) := Int.floor_le _
    have hlt : (T : ℚ) < (2 : ℚ) ^ (e + 1153) := lt_of_le_of_lt hfl hs2
    have h253 : (2 : ℚ) ^ (e + 1153) = ((2 ^ (k + 1) : ℤ) : ℚ) := by
      push_cast [zpow_natCast]
      rw [← zpow_natCast (2 : ℚ) (k + 1)]
      congr 1
      omega
    rw [h253] at hlt
    exact_mod_cast hlt
  have hTpos : 0 ≤ T := le_trans (by positivity) hT1
  have hcast1 : ((2 ^ k : ℕ) : ℤ) = (2 : ℤ) ^ k := by push_cast; ring
  have hcast2 : ((2 ^ (k + 1) : ℕ) : ℤ) = (2 : ℤ) ^ (k + 1) := by push_cast; ring
  have ht1 : 2 ^ k ≤ T.toNat := by omega
  have ht2 : T.toNat < 2 ^ (k + 1) := by omega
  have htne : T.toNat ≠ 0 := by
    have hp : 0 < 2 ^ k := Nat.pos_pow_of_pos k (by norm_num)
    omega
  have hllt : T.toNat.log2 < k + 1 := (Nat.log2_lt htne).mpr ht2
  have hlge : k ≤ T.toNat.log2 := (Nat.le_log2 htne).mpr ht1
  have hlog : Nat.log2 T.toNat = k := by omega
  have hrl : ratLog2Floor q = e + 52 := by
    rw [ratLog2Floor, ← hT, hlog]
    omega
  have hmax : max (ratLog2Floor q - 52) (-1074) = e := by
    rw [hrl]
    omega
  rw [roundDouble, if_neg hq.ne', if_neg (not_lt.mpr hq.le), roundDoublePos]
  rw [hmax, hm]

/-- Binary64 arithmetic is exact on the natural numbers below `2^53`:
they round to themselves. -/
theorem roundDouble_natCast (n : ℕ) (h : n < 2 ^ 53) : roundDouble (n : ℚ) = n := by
  rcases Nat.eq_zero_or_pos n with h0 | hpos
  · subst h0
    simp [roundDouble]
  have hne : n ≠ 0 := hpos.ne'
  set L : ℕ := Nat.log2 n with hL
  have hL52 : L ≤ 52 := by
    have := (Nat.log2_lt hne).mpr h
    omega
  have hbin1 : (2:ℚ) ^ (((L:ℤ) - 52) + 52) ≤ (n:ℚ) := by
    have h1 : 2 ^ L ≤ n := Nat.log2_self_le hne
    have he : ((L:ℤ) - 52) + 52 = (L:ℤ) := by ring
    rw [he, zpow_natCast]
    exact_mod_cast h1
  have hbin2 : (n:ℚ) < (2:ℚ) ^ (((L:ℤ) - 52) + 53) := by
    have h1 : n < 2 ^ (L + 1) := (Nat.log2_lt hne).mp (by omega)
    have he : ((L:ℤ) - 52) + 53 = ((L + 1 : ℕ) : ℤ) := by push_cast; ring
    rw [he, zpow_natCast]
    exact_mod_cast h1
  have hexp : (L:ℤ) - 52 = -((52 - L : ℕ) : ℤ) := by
    push_cast [Nat.cast_sub hL52]
    ring
  have hdiv : (n:ℚ) / 2 ^ ((L:ℤ) - 52) = (((n * 2 ^ (52 - L) : ℕ) : ℤ) : ℚ) := by
    rw [hexp, zpow_neg, div_eq_mul_inv, inv_inv, zpow_natCast]
    push_cast
    ring
  have hm : roundToEven ((n:ℚ) / 2 ^ ((L:ℤ) - 52)) = ((n * 2 ^ (52 - L) : ℕ) : ℤ) := by
    rw [hdiv]
    exact roundToEven_intCast _
  have hres := roundDouble_pos_eq (n:ℚ) ((L:ℤ) - 52) _ (by exact_mod_cast hpos)
    (by omega) hbin1 hbin2 hm
  rw [hres, hexp, zpow_neg, zpow_natCast]
  push_cast
  rw [mul_assoc, mul_inv_cancel₀ (by positivity), mul_one]

theorem fl_three_tenths : roundDouble (3 / 10 : ℚ) = 5404319552844595 / 2 ^ 54 := by
  have hx : (3 / 10 : ℚ) / 2 ^ (-54 : ℤ) = 27021597764222976 / 5 := by norm_num
  have hfloor : ⌊(27021597764222976 / 5 : ℚ)⌋ = 5404319552844595 := by
    rw [Int.floor_eq_iff]
    constructor <;> norm_num
  have hm : roundToEven ((3 / 10 : ℚ) / 2 ^ (-54 : ℤ)) = 5404319552844595 := by
    rw [hx]
    exact roundToEven_eq_of_lt _ _ hfloor (by norm_num)
  have hres := roundDouble_pos_eq (3 / 10 : ℚ) (-54) 5404319552844595 (by norm_num)
    (by norm_num) (by norm_num) (by norm_num) hm
  rw [hres]
  norm_num

theorem fl_one_tenth : roundDouble (1 / 10 : ℚ) = 7205759403792794 / 2 ^ 56 := by
  have hx : (1 / 10 : ℚ) / 2 ^ (-56 : ℤ) = 36028797018963968 / 5 := by norm_num
  have hfloor : ⌊(36028797018963968 / 5 : ℚ)⌋ = 7205759403792793 := by
    rw [Int.floor_eq_iff]
    constructor <;> norm_num
  have hm : roundToEven ((1 / 10 : ℚ) / 2 ^ (-56 : ℤ)) = 7205759403792794 := by
    rw [hx]
    have := roundToEven_eq_of_gt _ _ hfloor (by norm_num)
    simpa using this
  have hres := roundDouble_pos_eq (1 / 10 : ℚ) (-56) 7205759403792794 (by norm_num)
    (by norm_num) (by norm_num) (by norm_num) hm
  rw [hres]
  norm_num

theorem fl_sum :
    roundDouble (5404319552844595 / 2 ^ 54 + 7205759403792794 / 2 ^ 56 : ℚ) =
      7205759403792794 / 2 ^ 54 := by
  have hx : (5404319552844595 / 2 ^ 54 + 7205759403792794 / 2 ^ 56 : ℚ) /
      2 ^ (-54 : ℤ) = 14411518807585587 / 2 := by norm_num
  have hfloor : ⌊(14411518807585587 / 2 : ℚ)⌋ = 7205759403792793 := by
    rw [Int.floor_eq_iff]
    constructor <;> norm_num
  have hm : roundToEven ((5404319552844595 / 2 ^ 54 + 7205759403792794 / 2 ^ 56 : ℚ) /
      2 ^ (-54 : ℤ)) = 7205759403792794 := by
    rw [hx]
    have := roundToEven_tie_odd _ _ hfloor (by norm_num) (by norm_num)
    simpa using this
  have hres := roundDouble_pos_eq _ (-54) 7205759403792794 (by norm_num)
    (by norm_num) (by norm_num) (by norm_num) hm
  rw [hres]
  norm_num

theorem fl_mid :
    roundDouble (7205759403792794 / 2 ^ 54 : ℚ) = 7205759403792794 / 2 ^ 54 := by
  have hx : (7205759403792794 / 2 ^ 54 : ℚ) / 2 ^ (-54 : ℤ) =
      ((7205759403792794 : ℤ) : ℚ) := by norm_num
  have hm : roundToEven ((7205759403792794 / 2 ^ 54 : ℚ) / 2 ^ (-54 : ℤ)) =
      7205759403792794 := by
    rw [hx]
    exact roundToEven_intCast _
  have hres := roundDouble_pos_eq _ (-54) 7205759403792794 (by norm_num)
    (by norm_num) (by norm_num) (by norm_num) hm
  rw [hres]
  norm_num

theorem fl_diff :
    roundDouble (7205759403792794 / 2 ^ 54 - 7205759403792794 / 2 ^ 56 : ℚ) =
      5404319552844596 / 2 ^ 54 := by
  have hx : (7205759403792794 / 2 ^ 54 - 7205759403792794 / 2 ^ 56 : ℚ) /
      2 ^ (-54 : ℤ) = 10808639105689191 / 2 := by norm_num
  have hfloor : ⌊(10808639105689191 / 2 : ℚ)⌋ = 5404319552844595 := by
    rw [Int.floor_eq_iff]
    constructor <;> norm_num
  have hm : roundToEven ((7205759403792794 / 2 ^ 54 - 7205759403792794 / 2 ^ 56 : ℚ) /
      2 ^ (-54 : ℤ)) = 5404319552844596 := by
    rw [hx]
    have := roundToEven_tie_odd _ _ hfloor (by norm_num) (by norm_num)
    simpa using this
  have hres := roundDouble_pos_eq _ (-54) 5404319552844596 (by norm_num)
    (by norm_num) (by norm_num) (by norm_num) hm
  rw [hres]
  norm_num

/-- A successful deposit changes only the account table, writing the
double-rounded sum of the parsed balance and the parsed amount. -/
theorem deposit_state (db : DB) (username otp : String) (amount : Rat)
    (u : UserRow) (acct : AccountRow)
    (hu : findUser db username = some u)
    (hlen : ((sessionsMatching db u.id otp).length == 0) = false)
    (ha : findAccount db u.id = some acct) :
    (deposit db username otp amount).2.users = db.users ∧
    (deposit db username otp amount).2.sessions = db.sessions ∧
    (deposit db username otp amount).2.accounts =
      updateAccountBalance db.accounts u.id
        (roundDouble (roundDouble acct.balance + roundDouble amount)) := by
  refine ⟨?_, ?_, ?_⟩ <;> simp [deposit, hu, hlen, ha]

/-- A successful withdrawal changes only the account table, writing the
double-rounded difference of the parsed balance and the parsed amount. -/
theorem withdraw_state (db : DB) (username otp : String) (amount : Rat)
    (u : UserRow) (acct : AccountRow)
    (hu : findUser db username = some u)
    (hlen : ((sessionsMatching db u.id otp).length == 0) = false)
    (ha : findAccount db u.id = some acct) :
    (withdraw db username otp amount).2.users = db.users ∧
    (withdraw db username otp amount).2.sessions = db.sessions ∧
    (withdraw db username otp amount).2.accounts =
      updateAccountBalance db.accounts u.id
        (roundDouble (roundDouble acct.balance - roundDouble amount)) := by
  refine ⟨?_, ?_, ?_⟩ <;> simp [withdraw, hu, hlen, ha]

/-- The register handler never touches the sessions table. -/
theorem register_sessions (db : DB) (username password : String) :
    (register db username password).2.sessions = db.sessions := by
  rw [register]
  split
  · rfl
  · dsimp only
    split <;> first
      | rfl
      | (split <;> rfl)

/-- The update-password handler never touches the sessions table. -/
theorem updatePassword_sessions (db : DB) (username password newPassword : String) :
    (updatePassword db username password newPassword).2.sessions = db.sessions := by
  rw [updatePassword]
  split
  · rfl
  · split
    · rfl
    · rfl

/-- The delete-user handler only ever deletes session rows. -/
theorem deleteUser_sessions_sublist (db : DB) (username password otp : String) :
    (deleteUser db username password otp).2.sessions.Sublist db.sessions := by
  rw [deleteUser]
  split
  · exact List.Sublist.refl _
  · split
    · exact List.filter_sublist _
    · exact List.Sublist.refl _

/-- The logout handler only ever deletes session rows. -/
theorem logout_sessions_sublist (db : DB) (username otp : String) :
    (logout db username otp).2.sessions.Sublist db.sessions := by
  rw [logout]
  split
  · exact List.Sublist.refl _
  · exact List.filter_sublist _

/-- The balance handler never changes the state at all. -/
theorem getBalance_state (db : DB) (username otp : String) :
    (getBalance db username otp).2 = db := by
  rw [getBalance]
  split
  · rfl
  · dsimp only
    split <;> first
      | rfl
      | (split <;> rfl)

/-- The deposit handler never touches the sessions table. -/
theorem deposit_sessions (db : DB) (username otp : String) (amount : Rat) :
    (deposit db username otp amount).2.sessions = db.sessions := by
  rw [deposit]
  split
  · rfl
  · dsimp only
    split <;> first
      | rfl
      | (split <;> rfl)

/-- The withdraw handler never touches the sessions table. -/
theorem withdraw_sessions (db : DB) (username otp : String) (amount : Rat) :
    (withdraw db username otp amount).2.sessions = db.sessions := by
  rw [withdraw]
  split
  · rfl
  · dsimp only
    split <;> first
      | rfl
      | (split <;> rfl)

/-- A successful login preserves the one-session-per-user invariant: it
removes all session rows of the user before appending the single fresh
one, and every other handler only deletes or leaves session rows. -/
theorem login_atMostOne (db : DB) (username password otp : String) (now : Int)
    (h : atMostOneSession db) :
    atMostOneSession (login db username password otp now).2 := by
  cases hfu : findUser db username with
  | none => simpa [login, hfu, atMostOneSession] using h
  | some user =>
      cases hbc : bcryptCompare password user.password with
      | false => simpa [login, hfu, hbc, atMostOneSession] using h
      | true =>
          cases hfind : db.sessions.find? (fun s => s.user_id == user.id) with
          | none =>
              have hnone := List.find?_eq_none.mp hfind
              have hsess : (login db username password otp now).2.sessions =
                  db.sessions ++ [⟨user.id, otp, now⟩] := by
                simp [login, hfu, hbc, hfind]
              rw [atMostOneSession, hsess, List.pairwise_append]
              refine ⟨h, by simp, ?_⟩
              intro a ha b hb
              rw [List.mem_singleton] at hb
              subst hb
              have := hnone a ha
              simpa using this
          | some srow =>
              have hsess : (login db username password otp now).2.sessions =
                  db.sessions.filter (fun s => !(s.user_id == user.id)) ++
                    [⟨user.id, otp, now⟩] := by
                simp [login, hfu, hbc, hfind]
              rw [atMostOneSession, hsess, List.pairwise_append]
              refine ⟨List.Pairwise.sublist (List.filter_sublist _) h, by simp, ?_⟩
              intro a ha b hb
              rw [List.mem_singleton] at hb
              subst hb
              have := (List.mem_filter.mp ha).2
              simpa using this

/-- Every single operation preserves the one-session-per-user invariant. -/
theorem applyOp_atMostOne (op : Op) (db : DB) (h : atMostOneSession db) :
    atMostOneSession (applyOp op db) := by
  cases op with
  | register username password =>
      rw [applyOp, atMostOneSession, register_sessions]
      exact h
  | login username password otp now =>
      exact login_atMostOne db username password otp now h
  | updatePassword username password newPassword =>
      rw [applyOp, atMostOneSession, updatePassword_sessions]
      exact h
  | deleteUser username password otp =>
      rw [applyOp, atMostOneSession]
      exact List.Pairwise.sublist (deleteUser_sessions_sublist db username password otp) h
  | logout username otp =>
      rw [applyOp, atMostOneSession]
      exact List.Pairwise.sublist (logout_sessions_sublist db username otp) h
  | getBalance username otp =>
      rw [applyOp, atMostOneSession, getBalance_state]
      exact h
  | deposit username otp amount =>
      rw [applyOp, atMostOneSession, deposit_sessions]
      exact h
  | withdraw username otp amount =>
      rw [applyOp, atMostOneSession, withdraw_sessions]
      exact h
  | reap now =>
      rw [applyOp, atMostOneSession]
      exact List.Pairwise.sublist (List.filter_sublist _) h

/-- Preservation extends to arbitrary operation sequences. -/
theorem applyOps_atMostOne (ops : List Op) (db : DB) (h : atMostOneSession db) :
    atMostOneSession (applyOps ops db) := by
  induction ops generalizing db with
  | nil => exact h
  | cons op ops ih => exact ih (applyOp op db) (applyOp_atMostOne op db h)

/-! ## Claim theorems -/

/-- C1: the claim says getBalance with a non-matching OTP fails with
Unauthorized/NotFound and never returns the balance.  The code violates
it: the session guard tests the truthiness of the query-result *array*,
which is always truthy, so in a state where alice's only session has OTP
"111111", a request with the non-matching OTP "999999" still returns
status 200 with the account balance. -/
theorem C1_getBalance_ignores_otp :
    validateSession sampleDB 1 "999999" = false ∧
    getBalance sampleDB "alice" "999999" = (⟨200, .balance 42⟩, sampleDB) := by
  exact ⟨rfl, by decide⟩

/-- C2: the claim says concurrent deposits on the same account cannot
lose updates because each deposit is an atomic read-modify-write.  The
handler is two separate awaited store operations (SELECT then UPDATE),
and the interleaving read-A, read-B, write-A, write-B of two deposits of
1 from balance 0 ends at balance 1, not 2; only the serial schedule ends
at 2 — which matches running the actual deposit handler twice in
sequence from the zero-balance state. -/
theorem C2_lost_update :
    (runTx 1 1 [.readA, .readB, .writeA, .writeB] ⟨0, none, none⟩).balance = 1 ∧
    ((1 : Rat) = 2 → False) ∧
    (runTx 1 1 [.readA, .writeA, .readB, .writeB] ⟨0, none, none⟩).balance = 2 ∧
    (findAccount (deposit (deposit zeroDB "alice" "111111" 1).2
        "alice" "111111" 1).2 1).map AccountRow.balance = some 2 := by
  refine ⟨?_, by norm_num, ?_, ?_⟩
  · simp [runTx, txStep]
  · simp [runTx, txStep]
    norm_num
  · have h0 : roundDouble (0 : ℚ) = 0 := by
      simpa using roundDouble_natCast 0 (by norm_num)
    have h1 : roundDouble (1 : ℚ) = 1 := by
      simpa using roundDouble_natCast 1 (by norm_num)
    have h2 : roundDouble (2 : ℚ) = 2 := by
      simpa using roundDouble_natCast 2 (by norm_num)
    have hv1 : roundDouble (roundDouble (0 : ℚ) + roundDouble 1) = 1 := by
      rw [h0, h1, zero_add, h1]
    have hv2 : roundDouble (roundDouble (1 : ℚ) + roundDouble 1) = 2 := by
      rw [h1]
      norm_num [h2]
    obtain ⟨hdu, hds, hda⟩ := deposit_state zeroDB "alice" "111111" 1
      aliceRow ⟨1, 0⟩ (by decide) (by decide) (by decide)
    have hacc1 : (deposit zeroDB "alice" "111111" 1).2.accounts = [⟨1, 1⟩] := by
      rw [hda]
      have hproj : (⟨1, 0⟩ : AccountRow).balance = 0 := rfl
      rw [hproj, hv1]
      rfl
    have hu1 : findUser (deposit zeroDB "alice" "111111" 1).2 "alice" =
        some aliceRow := by
      simp only [findUser]
      rw [hdu]
      decide
    have hlen1 : ((sessionsMatching (deposit zeroDB "alice" "111111" 1).2
        aliceRow.id "111111").length == 0) = false := by
      have hsm : sessionsMatching (deposit zeroDB "alice" "111111" 1).2
          aliceRow.id "111111" = sessionsMatching zeroDB aliceRow.id "111111" := by
        simp only [sessionsMatching]
        rw [hds]
      rw [hsm]
      decide
    have ha1 : findAccount (deposit zeroDB "alice" "111111" 1).2 aliceRow.id =
        some ⟨1, 1⟩ := by
      simp only [findAccount]
      rw [hacc1]
      rfl
    obtain ⟨hwu2, hws2, hwa2⟩ := deposit_state (deposit zeroDB "alice" "111111" 1).2
      "alice" "111111" 1 aliceRow ⟨1, 1⟩ hu1 hlen1 ha1
    have hacc2 : (deposit (deposit zeroDB "alice" "111111" 1).2
        "alice" "111111" 1).2.accounts = [⟨1, 2⟩] := by
      rw [hwa2, hacc1]
      have hproj : (⟨1, 1⟩ : AccountRow).balance = 1 := rfl
      rw [hproj, hv2]
      rfl
    simp only [findAccount]
    rw [hacc2]
    rfl

/-- C3 counterexample: in a state where alice's only session has OTP
"111111", a delete-user request with the *correct* password but the
non-matching OTP "222222" succeeds with status 200 — not 401/404 as the
claim requires — and it deletes the user row while the session row
survives, so the cascade is not all-or-nothing either. -/
theorem C3_counterexample :
    bcryptCompare "pw1" aliceRow.password = true ∧
    validateSession sampleDB 1 "222222" = false ∧
    (deleteUser sampleDB "alice" "pw1" "222222").1.status = 200 ∧
    ((deleteUser sampleDB "alice" "pw1" "222222").1.status = 401 → False) ∧
    ((deleteUser sampleDB "alice" "pw1" "222222").1.status = 404 → False) ∧
    (deleteUser sampleDB "alice" "pw1" "222222").2.users = [] ∧
    (deleteUser sampleDB "alice" "pw1" "222222").2.sessions = [⟨1, "111111", 0⟩] := by
  decide

/-- C3 (amended): deleteUser returns 404 on an unknown username and 401
on a password mismatch, leaving the state unchanged; with a correct
password it returns 200 and deletes the user row regardless of the OTP,
deleting the session row only where `(user_id, otp)` matches, and never
touching account rows. -/
theorem C3_deleteUser_amended (db : DB) (username password otp : String) :
    (findUser db username = none →
      deleteUser db username password otp = (⟨404, .msg "User not found"⟩, db)) ∧
    (∀ u, findUser db username = some u → bcryptCompare password u.password = false →
      deleteUser db username password otp = (⟨401, .msg "Invalid password"⟩, db)) ∧
    (∀ u, findUser db username = some u → bcryptCompare password u.password = true →
      deleteUser db username password otp =
        (⟨200, .msg "User deleted"⟩,
         { db with
             users := db.users.filter (fun v => !(v.username == username)),
             sessions := db.sessions.filter (fun s =>
               !(s.user_id == u.id && s.otp == otp)) })) := by
  refine ⟨fun h => ?_, fun u hu hp => ?_, fun u hu hp => ?_⟩ <;>
    simp [deleteUser, *]

/-- C3 witness: the amended theorem applied in the sample state with the
matching OTP. -/
theorem C3_deleteUser_amended_witness :
    deleteUser sampleDB "alice" "pw1" "111111" =
      (⟨200, .msg "User deleted"⟩,
       { sampleDB with
           users := sampleDB.users.filter (fun v => !(v.username == "alice")),
           sessions := sampleDB.sessions.filter (fun s =>
             !(s.user_id == 1 && s.otp == "111111")) }) :=
  (C3_deleteUser_amended sampleDB "alice" "pw1" "111111").2.2 aliceRow
    (by decide) (by decide)

/-- C6 counterexample: registering the already-taken username "alice"
responds with status 500, not a 409 Conflict as the claim states. -/
theorem C6_counterexample :
    (register sampleDB "alice" "pw9").1.status = 500 ∧
    ((register sampleDB "alice" "pw9").1.status = 409 → False) := by
  decide

/-- C6 (amended): register responds 500 (not 409) on a duplicate
username, leaving all tables unchanged, and 201 when the username is
fresh (and the fresh user id is unused among account rows). -/
theorem C6_register_amended (db : DB) (username password : String) :
    (db.users.any (fun u => u.username == username) = true →
      register db username password = (⟨500, .msg "Failed to create user"⟩, db)) ∧
    (db.users.any (fun u => u.username == username) = false →
      db.accounts.any (fun a => a.user_id == db.nextUserId) = false →
      (register db username password).1 = ⟨201, .msg "User created"⟩) := by
  constructor
  · intro h
    simp [register, h]
  · intro h ha
    have hnone : db.users.find? (fun u => u.username == username) = none := by
      rw [List.find?_eq_none]
      intro x hx
      have hall := List.any_eq_false.mp h x hx
      simpa using hall
    have hfind : findUser
        { db with users := db.users ++ [⟨db.nextUserId, username, encryptPassword password⟩],
                  nextUserId := db.nextUserId + 1 } username =
        some ⟨db.nextUserId, username, encryptPassword password⟩ := by
      rw [findUser]
      show (db.users ++ [_]).find? _ = _
      rw [find?_append_of_eq_none _ _ _ hnone]
      simp
    simp [register, h, hfind, ha]

/-- C6 witness: the amended theorem applied in the sample state, for the
taken username "alice" and the fresh username "bob". -/
theorem C6_register_amended_witness :
    register sampleDB "alice" "pw9" = (⟨500, .msg "Failed to create user"⟩, sampleDB) ∧
    (register sampleDB "bob" "pw2").1 = ⟨201, .msg "User created"⟩ :=
  ⟨(C6_register_amended sampleDB "alice" "pw9").1 (by decide),
   (C6_register_amended sampleDB "bob" "pw2").2 (by decide) (by decide)⟩

/-- C7: a login that fails because the username is unknown and a login
that fails because the password hash comparison fails produce the *same*
response — status 401 with body message "Login failed." — so the two
failure causes are indistinguishable from the response, in any pair of
states and requests. -/
theorem C7_login_failure_uniform (db1 db2 : DB)
    (username1 password1 username2 password2 gen1 gen2 : String)
    (now1 now2 : Int) (u : UserRow)
    (h1 : findUser db1 username1 = none)
    (h2 : findUser db2 username2 = some u)
    (h3 : bcryptCompare password2 u.password = false) :
    (login db1 username1 password1 gen1 now1).1 =
      (login db2 username2 password2 gen2 now2).1 ∧
    (login db1 username1 password1 gen1 now1).1 = ⟨401, .msg "Login failed."⟩ := by
  simp [login, h1, h2, h3]

/-- C7 witness: unknown user "bob" versus wrong password for "alice". -/
theorem C7_login_failure_uniform_witness :
    (login sampleDB "bob" "pw1" "333333" 9).1 =
      (login sampleDB "alice" "badpw" "444444" 10).1 ∧
    (login sampleDB "bob" "pw1" "333333" 9).1 = ⟨401, .msg "Login failed."⟩ :=
  C7_login_failure_uniform sampleDB sampleDB "bob" "pw1" "alice" "badpw"
    "333333" "444444" 9 10 aliceRow (by decide) (by decide) (by decide)

/-- C8 counterexample: in a state where alice's only session has OTP
"111111", a logout request with the non-matching OTP "222222" responds
200 "Logout successful" — not 404 as the claim requires — and leaves the
state unchanged. -/
theorem C8_counterexample :
    validateSession sampleDB 1 "222222" = false ∧
    (logout sampleDB "alice" "222222").1.status = 200 ∧
    ((logout sampleDB "alice" "222222").1.status = 404 → False) ∧
    (logout sampleDB "alice" "222222").2 = sampleDB := by
  decide

/-- C8 (amended): logout responds 404 only when the username is unknown;
for a known user it responds 200 regardless of the OTP, removing exactly
the session rows matching `(user_id, otp)` — an OTP mismatch removes
nothing but still reports success. -/
theorem C8_logout_amended (db : DB) (username otp : String) :
    (findUser db username = none →
      logout db username otp =
        (⟨404, .msg "User not found or already logged out"⟩, db)) ∧
    (∀ u, findUser db username = some u →
      logout db username otp =
        (⟨200, .msg "Logout successful"⟩,
         { db with sessions := db.sessions.filter (fun s =>
             !(s.user_id == u.id && s.otp == otp)) })) := by
  refine ⟨fun h => ?_, fun u hu => ?_⟩ <;> simp [logout, *]

/-- C8 witness: the amended theorem applied in the sample state with the
matching OTP, removing alice's session. -/
theorem C8_logout_amended_witness :
    logout sampleDB "alice" "111111" =
      (⟨200, .msg "Logout successful"⟩,
       { sampleDB with sessions := sampleDB.sessions.filter (fun s =>
           !(s.user_id == 1 && s.otp == "111111")) }) :=
  (C8_logout_amended sampleDB "alice" "111111").2 aliceRow (by decide)

/-- C5 counterexample: the round-trip law fails for the program's
binary64 arithmetic at balance 0.3 and amount 0.1, an amount ≥ 0 with a
fully authenticated user: the deposit stores
fl(fl(0.3)+fl(0.1)) = 7205759403792794·2^-54 and the withdrawal stores
fl(that − fl(0.1)) = 5404319552844596·2^-54 ≈ 0.30000000000000004 ≠ 0.3,
so the balance does not return to its pre-deposit value. -/
theorem C5_counterexample :
    (0 : ℚ) ≤ 1 / 10 ∧
    validateSession floatDB 1 "111111" = true ∧
    (findAccount floatDB 1).map AccountRow.balance = some (3 / 10) ∧
    (findAccount (withdraw (deposit floatDB "alice" "111111" (1 / 10)).2
        "alice" "111111" (1 / 10)).2 1).map AccountRow.balance =
      some (5404319552844596 / 2 ^ 54) ∧
    ¬((5404319552844596 : ℚ) / 2 ^ 54 = 3 / 10) := by
  refine ⟨by norm_num, by decide, rfl, ?_, by norm_num⟩
  have hv1 : roundDouble (roundDouble (3 / 10 : ℚ) + roundDouble (1 / 10)) =
      7205759403792794 / 2 ^ 54 := by
    rw [fl_three_tenths, fl_one_tenth]
    exact fl_sum
  have hv2 : roundDouble (roundDouble (7205759403792794 / 2 ^ 54 : ℚ) -
      roundDouble (1 / 10)) = 5404319552844596 / 2 ^ 54 := by
    rw [fl_mid, fl_one_tenth]
    exact fl_diff
  obtain ⟨hdu, hds, hda⟩ := deposit_state floatDB "alice" "111111" (1 / 10)
    aliceRow ⟨1, 3 / 10⟩ (by decide) (by decide) rfl
  have hacc1 : (deposit floatDB "alice" "111111" (1 / 10)).2.accounts =
      [⟨1, 7205759403792794 / 2 ^ 54⟩] := by
    rw [hda]
    have hproj : (⟨1, 3 / 10⟩ : AccountRow).balance = 3 / 10 := rfl
    rw [hproj, hv1]
    rfl
  have hu1 : findUser (deposit floatDB "alice" "111111" (1 / 10)).2 "alice" =
      some aliceRow := by
    simp only [findUser]
    rw [hdu]
    decide
  have hlen1 : ((sessionsMatching (deposit floatDB "alice" "111111" (1 / 10)).2
      aliceRow.id "111111").length == 0) = false := by
    have hsm : sessionsMatching (deposit floatDB "alice" "111111" (1 / 10)).2
        aliceRow.id "111111" = sessionsMatching floatDB aliceRow.id "111111" := by
      simp only [sessionsMatching]
      rw [hds]
    rw [hsm]
    decide
  have ha1 : findAccount (deposit floatDB "alice" "111111" (1 / 10)).2 aliceRow.id =
      some ⟨1, 7205759403792794 / 2 ^ 54⟩ := by
    simp only [findAccount]
    rw [hacc1]
    rfl
  obtain ⟨hwu, hws, hwa⟩ := withdraw_state (deposit floatDB "alice" "111111" (1 / 10)).2
    "alice" "111111" (1 / 10) aliceRow ⟨1, 7205759403792794 / 2 ^ 54⟩ hu1 hlen1 ha1
  have hacc2 : (withdraw (deposit floatDB "alice" "111111" (1 / 10)).2
      "alice" "111111" (1 / 10)).2.accounts =
      [⟨1, 5404319552844596 / 2 ^ 54⟩] := by
    rw [hwa, hacc1]
    have hproj : (⟨1, 7205759403792794 / 2 ^ 54⟩ : AccountRow).balance =
        7205759403792794 / 2 ^ 54 := rfl
    rw [hproj, hv2]
    rfl
  simp only [findAccount]
  rw [hacc2]
  rfl

/-- C5 (amended): the round-trip law holds whenever the binary64
arithmetic is exact at the values involved — in particular for every
natural-number balance and amount with sum below 2^53: for an
authenticated user, deposit then withdraw of the same such amount
returns the balance to its pre-deposit value.  It does not hold for
every amount ≥ 0: decimals that are not binary64-representable drift by
rounding (see the counterexample at balance 0.3, amount 0.1). -/
theorem C5_round_trip_amended (db : DB) (username otp : String) (b a : ℕ)
    (u : UserRow) (acct : AccountRow)
    (hu : findUser db username = some u)
    (hs : validateSession db u.id otp = true)
    (ha : findAccount db u.id = some acct)
    (hb : acct.balance = (b : ℚ))
    (hlt : b + a < 2 ^ 53) :
    (findAccount (withdraw (deposit db username otp (a : ℚ)).2
        username otp (a : ℚ)).2 u.id).map AccountRow.balance =
      some acct.balance := by
  have hlen := sessionsMatching_length_beq_zero db u.id otp hs
  obtain ⟨hdu, hds, hda⟩ := deposit_state db username otp (a : ℚ) u acct hu hlen ha
  have hv1 : roundDouble (roundDouble acct.balance + roundDouble (a : ℚ)) =
      ((b + a : ℕ) : ℚ) := by
    rw [hb, roundDouble_natCast b (by omega), roundDouble_natCast a (by omega)]
    have hcast : (b : ℚ) + (a : ℚ) = ((b + a : ℕ) : ℚ) := by push_cast; ring
    rw [hcast, roundDouble_natCast (b + a) hlt]
  rw [hv1] at hda
  have hu1 : findUser (deposit db username otp (a : ℚ)).2 username = some u := by
    simp only [findUser] at hu ⊢
    rw [hdu]
    exact hu
  have hlen1 : ((sessionsMatching (deposit db username otp (a : ℚ)).2
      u.id otp).length == 0) = false := by
    have hsm : sessionsMatching (deposit db username otp (a : ℚ)).2 u.id otp =
        sessionsMatching db u.id otp := by
      simp only [sessionsMatching]
      rw [hds]
    rw [hsm]
    exact hlen
  have ha' : db.accounts.find? (fun x => x.user_id == u.id) = some acct := ha
  have ha1 : findAccount (deposit db username otp (a : ℚ)).2 u.id =
      some ⟨acct.user_id, ((b + a : ℕ) : ℚ)⟩ := by
    simp only [findAccount]
    rw [hda, findAccount_updateBalance, ha']
    rfl
  obtain ⟨hwu, hws, hwa⟩ := withdraw_state (deposit db username otp (a : ℚ)).2
    username otp (a : ℚ) u ⟨acct.user_id, ((b + a : ℕ) : ℚ)⟩ hu1 hlen1 ha1
  have hv2 : roundDouble (roundDouble
      ((⟨acct.user_id, ((b + a : ℕ) : ℚ)⟩ : AccountRow).balance) -
      roundDouble (a : ℚ)) = (b : ℚ) := by
    show roundDouble (roundDouble ((b + a : ℕ) : ℚ) - roundDouble (a : ℚ)) = (b : ℚ)
    rw [roundDouble_natCast (b + a) hlt, roundDouble_natCast a (by omega)]
    have hcast : ((b + a : ℕ) : ℚ) - (a : ℚ) = ((b : ℕ) : ℚ) := by push_cast; ring
    rw [hcast, roundDouble_natCast b (by omega)]
  rw [hv2] at hwa
  simp only [findAccount]
  rw [hwa, hda, findAccount_updateBalance, findAccount_updateBalance, ha']
  simp [hb]

/-- C5 witness: deposit 7 then withdraw 7 in the sample state brings
alice's balance back to 42 (all values binary64-exact). -/
theorem C5_round_trip_amended_witness :
    (findAccount (withdraw (deposit sampleDB "alice" "111111" ((7 : ℕ) : ℚ)).2
        "alice" "111111" ((7 : ℕ) : ℚ)).2 1).map AccountRow.balance =
      some (⟨1, 42⟩ : AccountRow).balance :=
  C5_round_trip_amended sampleDB "alice" "111111" 42 7 aliceRow ⟨1, 42⟩
    (by decide) (by decide) (by decide) (by norm_num) (by norm_num)

/-- C9: a Reaper pass at time now removes every session row strictly
older than the 10-minute TTL (none survives), and session validation
never consults the timestamp: arbitrarily rewriting every session row's
login timestamp does not change any validation result. -/
theorem C9_reaper_ttl :
    (∀ (db : DB) (now : Int),
      (clearSessions now db).sessions.all (fun s =>
        !(s.login_timestamp < now - tenMinutes)) = true) ∧
    (∀ (db : DB) (f : Int → Int) (uid : Nat) (otp : String),
      validateSession
        { db with sessions := db.sessions.map (fun s =>
            { s with login_timestamp := f s.login_timestamp }) } uid otp =
      validateSession db uid otp) := by
  constructor
  · intro db now
    rw [List.all_eq_true]
    intro s hs
    exact (List.mem_filter.mp hs).2
  · intro db f uid otp
    rw [validateSession, validateSession]
    show (db.sessions.map _).any _ = _
    rw [List.any_map]
    rfl

/-- C10: a successful password update (known username, matching old
password) responds 200 and changes only the stored password hash of that
user: the sessions and accounts tables are untouched, every session
validation result — in particular for an OTP issued before the change —
is unchanged, and the users table differs only in that user's password
field. -/
theorem C10_updatePassword_frame (db : DB)
    (username password newPassword : String) (u : UserRow)
    (hu : findUser db username = some u)
    (hp : bcryptCompare password u.password = true) :
    (updatePassword db username password newPassword).1 =
      ⟨200, .msg "Password updated"⟩ ∧
    (updatePassword db username password newPassword).2.sessions = db.sessions ∧
    (updatePassword db username password newPassword).2.accounts = db.accounts ∧
    (∀ (uid : Nat) (otp : String),
      validateSession (updatePassword db username password newPassword).2 uid otp =
        validateSession db uid otp) ∧
    (updatePassword db username password newPassword).2.users =
      db.users.map (fun v =>
        if v.id == u.id then { v with password := encryptPassword newPassword }
        else v) := by
  refine ⟨?_, ?_, ?_, ?_, ?_⟩ <;> simp [updatePassword, hu, hp, validateSession]

/-- C10 witness: updating alice's password from "pw1" to "pw2" in the
sample state responds 200, leaves sessions, accounts and validation
untouched, and rewrites only her password hash. -/
theorem C10_updatePassword_frame_witness :
    (updatePassword sampleDB "alice" "pw1" "pw2").1 =
      ⟨200, .msg "Password updated"⟩ ∧
    (updatePassword sampleDB "alice" "pw1" "pw2").2.sessions =
      sampleDB.sessions ∧
    (updatePassword sampleDB "alice" "pw1" "pw2").2.accounts =
      sampleDB.accounts ∧
    (∀ (uid : Nat) (otp : String),
      validateSession (updatePassword sampleDB "alice" "pw1" "pw2").2 uid otp =
        validateSession sampleDB uid otp) ∧
    (updatePassword sampleDB "alice" "pw1" "pw2").2.users =
      sampleDB.users.map (fun v =>
        if v.id == aliceRow.id then { v with password := encryptPassword "pw2" }
        else v) :=
  C10_updatePassword_frame sampleDB "alice" "pw1" "pw2" aliceRow
    (by decide) (by decide)

/-- C4: (a) the one-session-per-user invariant — no two session rows
share a user id — is preserved by every sequence of operations; (b) when
a user with an active session logs in again successfully with a fresh
OTP, the old session row is superseded: the old OTP no longer validates
and every remaining session row of that user carries the new OTP. -/
theorem C4_single_session :
    (∀ (db : DB) (ops : List Op),
      atMostOneSession db → atMostOneSession (applyOps ops db)) ∧
    (∀ (db : DB) (username password otp1 otp2 : String) (now : Int) (u : UserRow),
      findUser db username = some u →
      bcryptCompare password u.password = true →
      validateSession db u.id otp1 = true →
      otp2 ≠ otp1 →
      (∃ s ∈ db.sessions, s.user_id = u.id ∧ s.otp = otp1) ∧
      validateSession (login db username password otp2 now).2 u.id otp1 = false ∧
      (∀ s ∈ (login db username password otp2 now).2.sessions,
        s.user_id = u.id → s.otp = otp2)) := by
  constructor
  · exact fun db ops h => applyOps_atMostOne ops db h
  · intro db username password otp1 otp2 now u hfu hbc hv hne
    rw [validateSession, List.any_eq_true] at hv
    obtain ⟨s0, hs0, hp0⟩ := hv
    rw [Bool.and_eq_true, beq_iff_eq, beq_iff_eq] at hp0
    have hfind : ∃ srow, db.sessions.find? (fun s => s.user_id == u.id) = some srow := by
      cases hf : db.sessions.find? (fun s => s.user_id == u.id) with
      | none =>
          have hnone := List.find?_eq_none.mp hf s0 hs0
          rw [hp0.1] at hnone
          simp at hnone
      | some srow => exact ⟨srow, rfl⟩
    obtain ⟨srow, hf⟩ := hfind
    have hsess : (login db username password otp2 now).2.sessions =
        db.sessions.filter (fun s => !(s.user_id == u.id)) ++
          [⟨u.id, otp2, now⟩] := by
      simp [login, hfu, hbc, hf]
    refine ⟨⟨s0, hs0, hp0⟩, ?_, ?_⟩
    · rw [validateSession, hsess, List.any_append]
      have h1 : (db.sessions.filter (fun s => !(s.user_id == u.id))).any
          (fun s => s.user_id == u.id && s.otp == otp1) = false := by
        rw [List.any_eq_false]
        intro x hx
        have hxne := (List.mem_filter.mp hx).2
        simp only [Bool.not_eq_true'] at hxne
        simp [hxne]
      have h2 : ([(⟨u.id, otp2, now⟩ : SessionRow)]).any
          (fun s => s.user_id == u.id && s.otp == otp1) = false := by
        simp [hne]
      rw [h1, h2]
      rfl
    · intro s hsmem hsid
      rw [hsess, List.mem_append] at hsmem
      cases hsmem with
      | inl hmem =>
          have hxne := (List.mem_filter.mp hmem).2
          simp only [Bool.not_eq_true'] at hxne
          exact absurd hsid (by simpa using hxne)
      | inr hmem =>
          rw [List.mem_singleton] at hmem
          subst hmem
          rfl

/-- C4 witness: in the sample state, one more login by alice with the
fresh OTP "222222" keeps the invariant and makes the old OTP "111111"
fail validation. -/
theorem C4_single_session_witness :
    atMostOneSession (applyOps [Op.login "alice" "pw1" "222222" 5] sampleDB) ∧
    validateSession (login sampleDB "alice" "pw1" "222222" 5).2 1 "111111" = false :=
  ⟨C4_single_session.1 sampleDB [Op.login "alice" "pw1" "222222" 5] (by decide),
   (C4_single_session.2 sampleDB "alice" "pw1" "111111" "222222" 5 aliceRow
      (by decide) (by decide) (by decide) (by decide)).2.1⟩

end NextBank
